import Mathlib

/-
  Verification of the qr2scad conversion pipeline (qr2scad/qr2scad.py).

  The source is Python 2, so every `/` on integers below is floor division,
  mirrored here by `Nat` division.  Images are shallowly embedded as a width,
  a height, and an intensity function (8-bit grayscale, mode 'L'); the input
  image is taken after the `convert('L')` step, which only normalises the
  channel count and is performed by the external codec.  The emitted OpenSCAD
  text is embedded structurally, one constructor per emitted statement, in
  emission order.
-/

namespace QrToScad

/-- `BLOCK_SIZE = 1` from the source (a Python int, used in the integer
placement arithmetic). -/
def BLOCK_SIZE : ℤ := 1

/-- `BLOCK_PADDING = 0.01` from the source. -/
def BLOCK_PADDING : ℚ := 1 / 100

/-- `BLOCK_SIDE = BLOCK_SIZE - BLOCK_PADDING` from the source. -/
def BLOCK_SIDE : ℚ := (BLOCK_SIZE : ℚ) - BLOCK_PADDING

/-- `PDP_SIDE = 7`: the position detection patterns are 7x7 modules. -/
def PDP_SIDE : ℕ := 7

/-- A grayscale image: width, height, and the intensity at row `y`,
column `x` (PIL access `img_matrix[x, y]` is `pix y x` here).  Intensities
of an 8-bit 'L'-mode image lie in `0..255`. -/
structure Image where
  w : ℕ
  h : ℕ
  pix : ℕ → ℕ → ℕ

/-- `ImageOps.invert`: each pixel becomes `255 - v`. -/
def invert (img : Image) : Image :=
  ⟨img.w, img.h, fun y x => 255 - img.pix y x⟩

/-- All in-bounds coordinates `(y, x)` in raster order (row-major,
left to right, top to bottom). -/
def coordsList (img : Image) : List (ℕ × ℕ) :=
  (List.range img.h).flatMap fun y => (List.range img.w).map fun x => (y, x)

/-- The coordinates of the foreground (nonzero-intensity) pixels. -/
def fg (img : Image) : List (ℕ × ℕ) :=
  (coordsList img).filter fun p => img.pix p.1 p.2 ≠ 0

/-- A PIL bounding box `(left, upper, right, lower)`; `right` and `bottom`
are exclusive. -/
structure BBox where
  left : ℕ
  top : ℕ
  right : ℕ
  bottom : ℕ
deriving DecidableEq

/-- `Image.getbbox`: the minimal box containing all nonzero pixels, or
`none` when the image is entirely zero. -/
def getbbox (img : Image) : Option BBox :=
  match fg img with
  | [] => none
  | p :: ps =>
    some ⟨((p :: ps).map Prod.snd).foldl min p.2,
          ((p :: ps).map Prod.fst).foldl min p.1,
          ((p :: ps).map Prod.snd).foldl max p.2 + 1,
          ((p :: ps).map Prod.fst).foldl max p.1 + 1⟩

/-- `Image.crop`: with box `none` PIL copies the whole image (this is what
`img.crop(img.getbbox())` does on a blank image); otherwise the new image
has size `(right - left) x (bottom - top)` and reads the source shifted by
`(left, top)`. -/
def crop (img : Image) (b : Option BBox) : Image :=
  match b with
  | none => img
  | some b =>
    ⟨b.right - b.left, b.bottom - b.top,
     fun y x => img.pix (y + b.top) (x + b.left)⟩

/-- `list(img.getdata())`: pixel values in raster order. -/
def getdata (img : Image) : List ℕ :=
  (List.range img.h).flatMap fun y => (List.range img.w).map fun x => img.pix y x

/-- Python's `list.index(0)`: index of the first zero, `none` when absent
(where Python raises `ValueError`). -/
def idxOfZero : List ℕ → Option ℕ
  | [] => none
  | v :: vs => if v = 0 then some 0 else (idxOfZero vs).map (· + 1)

/-- The raster-order index of the first zero pixel of an image,
`list(img.getdata()).index(0)` in the source. -/
def firstZeroIdx (img : Image) : Option ℕ :=
  idxOfZero (getdata img)

/-- `qr_pixel_size = list(img.getdata()).index(0) / PDP_SIDE` (Python 2
integer division); `none` models the `ValueError` when no zero exists. -/
def qrPixelSize (img : Image) : Option ℕ :=
  (firstZeroIdx img).map (· / PDP_SIDE)

/-- The resampling filters of the imaging library. -/
inductive ResampleFilter where
  | nearest
  | box
  | bilinear
  | bicubic
  | lanczos
deriving DecidableEq

/-- The source calls `img.resize((new_size, new_size))` with no `resample`
argument, so the library default applies; for classic PIL (the Python 2
library the source targets) `Image.resize` defaults to nearest-neighbour. -/
def resizeDefaultFilter : ResampleFilter := ResampleFilter.nearest

/-- `img.resize((W, H))` under the default nearest-neighbour filter: the
destination pixel reads the source at the floor-scaled coordinate.  (No
claim below depends on the interpolated values, only on the output size
and on `resizeDefaultFilter`.) -/
def resize (img : Image) (W H : ℕ) : Image :=
  ⟨W, H, fun y x => img.pix (y * img.h / H) (x * img.w / W)⟩

/-- One emitted OpenSCAD statement, in the dialect the source prints:
the `_qr_code_dot` cube macro, the `qr_code` macro holding the translate
placements, the `qr_code_size` assignment, and the optional `qr_code();`
invocation. -/
inductive ScadItem where
  | dotModule (sideX sideY height : ℚ)
  | qrModule (body : List (ℤ × ℤ × ℤ))
  | sizeAssign (value : ℕ)
  | callQr
deriving DecidableEq

/-- The double loop of the source: for each `row`, then each `column`, a
dark cell (`img_matrix[column, row] != 0`) contributes one translate
target `(BLOCK_SIZE * column - qr_side / 2, -BLOCK_SIZE * row + qr_side / 2, 0)`
with Python 2 integer division `qr_side / 2`. -/
def placements (n : ℕ) (g : ℕ → ℕ → ℕ) : List (ℤ × ℤ × ℤ) :=
  (List.range n).flatMap fun row =>
    (List.range n).filterMap fun column =>
      if g row column ≠ 0 then
        some (BLOCK_SIZE * (column : ℤ) - ((n / 2 : ℕ) : ℤ),
              -(BLOCK_SIZE * (row : ℤ)) + ((n / 2 : ℕ) : ℤ), 0)
      else none

/-- The full emitted script, in the order the source concatenates it:
dot-cube macro, aggregate macro, size constant, optional invocation. -/
def emitScript (n : ℕ) (g : ℕ → ℕ → ℕ) (render : Bool) : List ScadItem :=
  ScadItem.dotModule BLOCK_SIDE BLOCK_SIDE 1 ::
  ScadItem.qrModule (placements n g) ::
  ScadItem.sizeAssign n ::
  (if render then [ScadItem.callQr] else [])

/-- The exception kinds the conversion can raise: the squareness `assert`,
the `ValueError` from `list.index(0)` on an image with no zero pixel, and
the `ZeroDivisionError` from `qr_side / qr_pixel_size`. -/
inductive Err where
  | assertionFailed
  | valueNotFound
  | zeroDivision
deriving DecidableEq

deriving instance DecidableEq for Except

/-- Result of one conversion call: the value returned (or the exception
raised), and the content written to the destination file — `none` when the
exception propagates before `open(outfile)` is reached. -/
structure ConvResult where
  ret : Except Err (List ScadItem)
  written : Option (List ScadItem)
deriving DecidableEq

/-- The image after inversion and cropping to the foreground bounding box
(`img.crop(img.getbbox())` on the inverted image). -/
def croppedOf (img : Image) : Image :=
  crop (invert img) (getbbox (invert img))

/-- The conversion `qr2scad`, line for line: invert, crop to the bounding
box, assert squareness, detect the module size from the first zero pixel,
fail on a zero module size, resize to one pixel per module, emit the
script, write it to the output file, and return it. -/
def qr2scad (img : Image) (render : Bool) : ConvResult :=
  let cr := croppedOf img
  if cr.w ≠ cr.h then ⟨.error .assertionFailed, none⟩
  else
    match qrPixelSize cr with
    | none => ⟨.error .valueNotFound, none⟩
    | some ps =>
      if ps = 0 then ⟨.error .zeroDivision, none⟩
      else
        let ns := cr.w / ps
        let script := emitScript ns (resize cr ns ns).pix render
        ⟨.ok script, some script⟩

/-- The dark cells `(row, column)` of an `n x n` module grid, in raster
order. -/
def darkCells (n : ℕ) (g : ℕ → ℕ → ℕ) : List (ℕ × ℕ) :=
  (List.range n).flatMap fun r =>
    ((List.range n).filter fun c => g r c ≠ 0).map fun c => (r, c)

/-- The translate target the emitter assigns to grid cell `(row, column)`. -/
def coordOf (n : ℕ) (rc : ℕ × ℕ) : ℤ × ℤ × ℤ :=
  (BLOCK_SIZE * (rc.2 : ℤ) - ((n / 2 : ℕ) : ℤ),
   -(BLOCK_SIZE * (rc.1 : ℤ)) + ((n / 2 : ℕ) : ℤ), 0)

/-- Re-parsing a translate target of the emitted script back to a grid
cell `(row, column)`, using the emitted size constant `n`. -/
def reparse (n : ℕ) (p : ℤ × ℤ × ℤ) : ℤ × ℤ :=
  (((n / 2 : ℕ) : ℤ) - p.2.1, p.1 + ((n / 2 : ℕ) : ℤ))

/-- An all-light (blank) square input image: every pixel at full
intensity 255, so nothing is foreground after inversion. -/
def blankImage (n : ℕ) : Image :=
  ⟨n, n, fun _ _ => 255⟩

/-- Recogniser for the unit-primitive (dot cube) macro statement. -/
def isDotModule : ScadItem → Bool
  | .dotModule _ _ _ => true
  | _ => false

/-- Recogniser for the aggregate (qr_code) macro statement. -/
def isQrModule : ScadItem → Bool
  | .qrModule _ => true
  | _ => false

/-- Recogniser for the size-constant assignment statement. -/
def isSizeAssign : ScadItem → Bool
  | .sizeAssign _ => true
  | _ => false

/-- Recogniser for the aggregate-macro invocation statement. -/
def isCallQr : ScadItem → Bool
  | .callQr => true
  | _ => false

/-- A concrete 14x14 input: a QR-like image whose top row is dark ink
(14 pixels, two source pixels per module across a 7-module PDP edge) with
one extra dark pixel at the bottom-left, so the bounding box is the whole
image and the detected module size is 2. -/
def wimg : Image :=
  ⟨14, 14, fun y x => if y = 0 ∨ (y = 13 ∧ x = 0) then 0 else 255⟩

/-- The script `qr2scad` emits for `wimg` with the render flag off: the
dot cube of side `BLOCK_SIDE = 0.99`, seven placements along the top row,
and the size constant 7. -/
def wScript : List ScadItem :=
  [ScadItem.dotModule BLOCK_SIDE BLOCK_SIDE 1,
   ScadItem.qrModule
     [(-3, 3, 0), (-2, 3, 0), (-1, 3, 0), (0, 3, 0), (1, 3, 0), (2, 3, 0), (3, 3, 0)],
   ScadItem.sizeAssign 7]

/-- A concrete input whose foreground (two dark pixels side by side) has a
2x1, non-square bounding box. -/
def wNonSq : Image :=
  ⟨3, 2, fun y x => if y = 0 ∧ x ≤ 1 then 0 else 255⟩

/-- A concrete 2x2 image whose raster data is `[5, 0, 3, 3]`: the first
zero sits at raster index 1. -/
def wC5img : Image :=
  ⟨2, 2, fun y x => if y = 0 ∧ x = 0 then 5 else if y = 0 ∧ x = 1 then 0 else 3⟩

/-- A concrete 2x2 module grid with a single dark module at row 0,
column 1. -/
def wGrid : ℕ → ℕ → ℕ :=
  fun r c => if r = 0 ∧ c = 1 then 7 else 0

instance (priority := 2000) prodDecBEq {α β : Type} [DecidableEq α]
    [DecidableEq β] : BEq (α × β) :=
  instBEqOfDecidableEq

instance (priority := 2000) prodDecLawfulBEq {α β : Type} [DecidableEq α]
    [DecidableEq β] : LawfulBEq (α × β) where
  eq_of_beq h := of_decide_eq_true h
  rfl := decide_eq_true rfl

/-- A `filterMap` whose function is an if-some-else-none collapses to a
filter followed by a map. -/
lemma filterMap_if_eq {α β : Type} (p : α → Prop) [DecidablePred p] (f : α → β)
    (l : List α) :
    (l.filterMap fun a => if p a then some (f a) else none) =
      (l.filter fun a => p a).map f := by
  induction l with
  | nil => rfl
  | cons a l ih =>
    by_cases h : p a <;> simp [List.filterMap_cons, List.filter_cons, h, ih]

/-- The emitted placement list is the dark-cell list pushed through the
cell-to-coordinate map. -/
lemma placements_eq_map (n : ℕ) (g : ℕ → ℕ → ℕ) :
    placements n g = (darkCells n g).map (coordOf n) := by
  unfold placements darkCells
  rw [List.map_flatMap]
  refine List.flatMap_congr ?_
  intro r _
  rw [List.map_map, ← filterMap_if_eq (fun c => g r c ≠ 0) (coordOf n ∘ fun c => (r, c))]
  rfl

/-- Cell-to-coordinate map is injective: column is recovered from x,
row from y. -/
lemma coordOf_injective (n : ℕ) : Function.Injective (coordOf n) := by
  intro a b h
  obtain ⟨r1, c1⟩ := a
  obtain ⟨r2, c2⟩ := b
  simp only [coordOf, BLOCK_SIZE, Prod.mk.injEq] at h ⊢
  omega

/-- Membership in the dark-cell list. -/
lemma mem_darkCells (n : ℕ) (g : ℕ → ℕ → ℕ) (r c : ℕ) :
    (r, c) ∈ darkCells n g ↔ r < n ∧ c < n ∧ g r c ≠ 0 := by
  simp only [darkCells, List.mem_flatMap, List.mem_map, List.mem_filter,
    List.mem_range, decide_eq_true_eq, Prod.mk.injEq]
  constructor
  · rintro ⟨a, ha, x, ⟨hx, hg⟩, rfl, rfl⟩
    exact ⟨ha, hx, hg⟩
  · rintro ⟨hr, hc, hg⟩
    exact ⟨r, hr, c, ⟨hc, hg⟩, rfl, rfl⟩

/-- The dark-cell list has no duplicates. -/
lemma darkCells_nodup (n : ℕ) (g : ℕ → ℕ → ℕ) : (darkCells n g).Nodup := by
  unfold darkCells
  refine List.nodup_flatMap.mpr ⟨?_, ?_⟩
  · intro r _
    refine List.Nodup.map ?_ ((List.nodup_range n).filter _)
    intro a b hab
    simpa using hab
  · refine List.Pairwise.imp ?_ (List.nodup_range n)
    intro a b hab x hxa hxb
    simp only [List.mem_map, List.mem_filter] at hxa hxb
    obtain ⟨ca, -, rfl⟩ := hxa
    obtain ⟨cb, -, h⟩ := hxb
    exact hab (congrArg Prod.fst h.symm)

/-- Re-parsing inverts the cell-to-coordinate map exactly. -/
lemma reparse_coordOf (n : ℕ) (rc : ℕ × ℕ) :
    reparse n (coordOf n rc) = ((rc.1 : ℤ), (rc.2 : ℤ)) := by
  simp only [reparse, coordOf, BLOCK_SIZE, Prod.mk.injEq]
  omega

/-- Membership in the raster coordinate list is exactly boundedness. -/
lemma mem_coordsList (img : Image) (p : ℕ × ℕ) :
    p ∈ coordsList img ↔ p.1 < img.h ∧ p.2 < img.w := by
  obtain ⟨y, x⟩ := p
  simp only [coordsList, List.mem_flatMap, List.mem_map, List.mem_range, Prod.mk.injEq]
  constructor
  · rintro ⟨a, ha, b, hb, rfl, rfl⟩
    exact ⟨ha, hb⟩
  · rintro ⟨hy, hx⟩
    exact ⟨y, hy, x, hx, rfl, rfl⟩

/-- Every raster-data entry is a pixel value at some in-bounds coordinate. -/
lemma mem_getdata (img : Image) (a : ℕ) :
    a ∈ getdata img ↔ ∃ y < img.h, ∃ x < img.w, img.pix y x = a := by
  simp only [getdata, List.mem_flatMap, List.mem_map, List.mem_range]

/-- The raster data has one entry per pixel. -/
lemma getdata_length (img : Image) : (getdata img).length = img.h * img.w := by
  simp [getdata, List.length_flatMap, Function.comp_def]

/-- Python's `index(0)` on a nonempty all-zero list returns index 0. -/
lemma idxOfZero_all_zero {l : List ℕ} (hne : l ≠ [])
    (hall : ∀ a ∈ l, a = 0) : idxOfZero l = some 0 := by
  cases l with
  | nil => exact absurd rfl hne
  | cons v vs =>
    have : v = 0 := hall v (List.mem_cons_self v vs)
    simp [idxOfZero, this]

/-- Python's `index(0)`: characterisation of the returned index as the
first raster position holding a zero. -/
lemma idxOfZero_eq_some {l : List ℕ} {i : ℕ} (hi : i < l.length)
    (h0 : l.getD i 1 = 0) (hprev : ∀ j, j < i → l.getD j 0 ≠ 0) :
    idxOfZero l = some i := by
  induction l generalizing i with
  | nil => simp at hi
  | cons v vs ih =>
    cases i with
    | zero =>
      simp only [List.getD_cons_zero] at h0
      simp [idxOfZero, h0]
    | succ m =>
      have hv : v ≠ 0 := by
        have := hprev 0 (Nat.succ_pos m)
        simpa using this
      have hrec : idxOfZero vs = some m := by
        refine ih ?_ ?_ ?_
        · simpa using hi
        · simpa using h0
        · intro j hj
          have := hprev (j + 1) (by omega)
          simpa using this
      simp [idxOfZero, hv, hrec]

/-- The written file content is the returned value's payload: `some` of
the script on success, `none` on any raised exception. -/
lemma written_eq_toOption (img : Image) (render : Bool) :
    (qr2scad img render).written = (qr2scad img render).ret.toOption := by
  unfold qr2scad
  dsimp only
  split
  · rfl
  · split
    · rfl
    · split
      · rfl
      · rfl

/-- C1: Round-trip law — for every square module grid of side `n`,
re-parsing the placement (translate) coordinates of the emitted script
recovers exactly the dark-module `(row, column)` pairs: the re-parsed list
is the dark-cell list itself, and the placement list has no duplicates, so
no dark module is dropped, duplicated, or mapped to another's
coordinates. -/
theorem round_trip_placements (n : ℕ) (g : ℕ → ℕ → ℕ) :
    (placements n g).map (reparse n) =
      (darkCells n g).map (fun rc => ((rc.1 : ℤ), (rc.2 : ℤ))) ∧
    (placements n g).Nodup := by
  constructor
  · rw [placements_eq_map, List.map_map]
    simp only [Function.comp_def, reparse_coordOf]
  · rw [placements_eq_map]
    exact (darkCells_nodup n g).map (coordOf_injective n)

/-- C2: a dark cell `(row, column)` (intensity `≠ 0`) contributes exactly
one placement at `x = BLOCK_SIZE * column - n / 2`,
`y = -BLOCK_SIZE * row + n / 2`, `z = 0` (`n / 2` is the integer division
the Python 2 source performs), and a cell of intensity `0` contributes no
placement at its coordinates. -/
theorem placement_instance_count (n : ℕ) (g : ℕ → ℕ → ℕ) (r c : ℕ)
    (hr : r < n) (hc : c < n) :
    (placements n g).count
        (BLOCK_SIZE * (c : ℤ) - ((n / 2 : ℕ) : ℤ),
         -(BLOCK_SIZE * (r : ℤ)) + ((n / 2 : ℕ) : ℤ), 0) =
      if g r c ≠ 0 then 1 else 0 := by
  have hcoord :
      ((BLOCK_SIZE * (c : ℤ) - ((n / 2 : ℕ) : ℤ),
        -(BLOCK_SIZE * (r : ℤ)) + ((n / 2 : ℕ) : ℤ), 0) : ℤ × ℤ × ℤ) =
        coordOf n (r, c) := rfl
  rw [hcoord, placements_eq_map,
    List.count_map_of_injective _ _ (coordOf_injective n)]
  by_cases hg : g r c ≠ 0
  · rw [if_pos hg]
    exact List.count_eq_one_of_mem (darkCells_nodup n g)
      ((mem_darkCells n g r c).mpr ⟨hr, hc, hg⟩)
  · rw [if_neg hg]
    exact List.count_eq_zero.mpr fun hmem =>
      hg ((mem_darkCells n g r c).mp hmem).2.2

/-- Witness for C2 at the concrete grid `wGrid` (side 2, one dark module
at row 0, column 1). -/
theorem placement_instance_count_witness :
    (placements 2 wGrid).count
        (BLOCK_SIZE * ((1 : ℕ) : ℤ) - ((2 / 2 : ℕ) : ℤ),
         -(BLOCK_SIZE * ((0 : ℕ) : ℤ)) + ((2 / 2 : ℕ) : ℤ), 0) =
      if wGrid 0 1 ≠ 0 then 1 else 0 :=
  placement_instance_count 2 wGrid 0 1 (by decide) (by decide)

/-- C7: with the default constants, `BLOCK_SIDE = BLOCK_SIZE -
BLOCK_PADDING = 0.99`, and every emitted script contains the
unit-primitive macro as a cube of footprint `BLOCK_SIDE x BLOCK_SIDE` and
height 1. -/
theorem block_side_dot_macro :
    BLOCK_SIDE = (BLOCK_SIZE : ℚ) - BLOCK_PADDING ∧
    BLOCK_SIDE = 99 / 100 ∧
    ∀ (n : ℕ) (g : ℕ → ℕ → ℕ) (render : Bool),
      ScadItem.dotModule BLOCK_SIDE BLOCK_SIDE 1 ∈ emitScript n g render := by
  refine ⟨rfl, by norm_num [BLOCK_SIDE, BLOCK_SIZE, BLOCK_PADDING], ?_⟩
  intro n g render
  simp [emitScript]

/-- C8: every emitted script holds exactly one unit-primitive macro
definition, exactly one aggregate macro definition, exactly one
size-constant assignment (whose value is the module count `n`), and
exactly one aggregate invocation when the render flag is set, none
otherwise. -/
theorem script_statement_counts (n : ℕ) (g : ℕ → ℕ → ℕ) (render : Bool) :
    (emitScript n g render).countP isDotModule = 1 ∧
    (emitScript n g render).countP isQrModule = 1 ∧
    (emitScript n g render).countP isSizeAssign = 1 ∧
    ScadItem.sizeAssign n ∈ emitScript n g render ∧
    (emitScript n g render).countP isCallQr = if render then 1 else 0 := by
  cases render <;>
    simp [emitScript, List.countP_cons, isDotModule, isQrModule,
      isSizeAssign, isCallQr]

/-- C3 counterexample: on the all-light 4x4 input the conversion does not
raise any empty-image error — instead `getbbox` yields `none`, the crop
silently keeps the whole image, and the conversion dies later with the
`ZeroDivisionError` of `qr_side / qr_pixel_size`.  The source has no
empty-image error path at all, so the claimed failure kind is wrong. -/
theorem blank_input_division_cex :
    qr2scad (blankImage 4) false =
      ⟨Except.error Err.zeroDivision, none⟩ := by
  decide

/-- C3 amended: an all-light (blank) square input of positive side fails
with the division-by-zero error raised at module-size computation (not an
empty-image error, which the code never raises), and no grid or geometry
is produced. -/
theorem blank_square_input_zero_division (img : Image) (render : Bool)
    (hsq : img.w = img.h) (hw : 0 < img.w)
    (hblank : ∀ y < img.h, ∀ x < img.w, img.pix y x = 255) :
    qr2scad img render = ⟨Except.error Err.zeroDivision, none⟩ := by
  have hfg : fg (invert img) = [] := by
    rw [fg, List.filter_eq_nil_iff]
    intro p hp
    rw [mem_coordsList] at hp
    simp only [invert] at hp ⊢
    simp [hblank p.1 hp.1 p.2 hp.2]
  have hbb : getbbox (invert img) = none := by
    unfold getbbox
    rw [hfg]
  have hcr : croppedOf img = invert img := by
    unfold croppedOf crop
    rw [hbb]
  have hW : (croppedOf img).w = img.w := by rw [hcr]; rfl
  have hH : (croppedOf img).h = img.h := by rw [hcr]; rfl
  have hps : qrPixelSize (croppedOf img) = some 0 := by
    unfold qrPixelSize firstZeroIdx
    rw [idxOfZero_all_zero ?hne ?hall]
    case hne =>
      intro hnil
      have hlen := getdata_length (croppedOf img)
      rw [hnil, hW, hH] at hlen
      rcases Nat.mul_eq_zero.mp hlen.symm with h | h <;> omega
    case hall =>
      intro a ha
      rw [hcr, mem_getdata] at ha
      obtain ⟨y, hy, x, hx, hpix⟩ := ha
      simp only [invert] at hy hx hpix
      rw [← hpix, hblank y hy x hx]
    rfl
  have hif : ¬((croppedOf img).w ≠ (croppedOf img).h) := by
    rw [hW, hH]
    exact not_not_intro hsq
  simp only [qr2scad]
  rw [if_neg hif, hps]
  rfl

/-- Witness for the amended C3 at the concrete blank 3x3 image. -/
theorem blank_square_input_zero_division_witness :
    qr2scad (blankImage 3) true = ⟨Except.error Err.zeroDivision, none⟩ :=
  blank_square_input_zero_division (blankImage 3) true rfl (by decide)
    (fun _ _ _ _ => rfl)

/-- C4: whenever the foreground bounding box of the inverted input is
non-square, the conversion fails with the squareness assertion (the
source's `NonSquareInputError`), never auto-correcting, and writes
nothing. -/
theorem non_square_bbox_assertion (img : Image) (render : Bool) (b : BBox)
    (hb : getbbox (invert img) = some b)
    (hns : b.right - b.left ≠ b.bottom - b.top) :
    qr2scad img render = ⟨Except.error Err.assertionFailed, none⟩ := by
  have hcr : croppedOf img = crop (invert img) (some b) := by
    unfold croppedOf
    rw [hb]
  have hif : (croppedOf img).w ≠ (croppedOf img).h := by
    rw [hcr]
    exact hns
  simp only [qr2scad]
  rw [if_pos hif]

/-- Witness for C4 at a concrete input whose dark region (two pixels side
by side) has a 2x1 bounding box. -/
theorem non_square_bbox_assertion_witness :
    qr2scad wNonSq false = ⟨Except.error Err.assertionFailed, none⟩ :=
  non_square_bbox_assertion wNonSq false ⟨0, 0, 2, 1⟩ (by decide) (by decide)

/-- C5: for an image whose raster data holds a zero, the detected module
size is the raster-order index of the first zero-intensity pixel divided
by `PDP_SIDE = 7` (Python 2 integer division). -/
theorem module_size_first_zero (img : Image) (i : ℕ)
    (hi : i < (getdata img).length)
    (h0 : (getdata img).getD i 1 = 0)
    (hprev : ∀ j, j < i → (getdata img).getD j 0 ≠ 0) :
    qrPixelSize img = some (i / PDP_SIDE) := by
  unfold qrPixelSize firstZeroIdx
  rw [idxOfZero_eq_some hi h0 hprev]
  rfl

/-- Witness for C5 at the concrete image with raster data `[5, 0, 3, 3]`:
the first zero is at index 1. -/
theorem module_size_first_zero_witness :
    qrPixelSize wC5img = some (1 / PDP_SIDE) :=
  module_size_first_zero wC5img 1 (by decide) (by decide) (by decide)

/-- C6 counterexample: the source's `img.resize((new_size, new_size))`
passes no resample argument, so the library default filter applies —
nearest-neighbour, not the area/box resampling the claim requires. -/
theorem resize_filter_not_box_cex :
    resizeDefaultFilter ≠ ResampleFilter.box := by
  decide

/-- C6 amended: after module-size detection the module count is the
cropped side length divided by the module size (Python 2 integer
division), and the cropped image is resized to exactly
module-count x module-count pixels using the library's default resample
filter (nearest-neighbour), not area/box resampling. -/
theorem module_count_resize_default (img : Image) (render : Bool) (ps : ℕ)
    (hsq : (croppedOf img).w = (croppedOf img).h)
    (hps : qrPixelSize (croppedOf img) = some ps) (hps0 : ps ≠ 0) :
    (qr2scad img render).ret =
      Except.ok (emitScript ((croppedOf img).w / ps)
        (resize (croppedOf img) ((croppedOf img).w / ps)
          ((croppedOf img).w / ps)).pix render) ∧
    (resize (croppedOf img) ((croppedOf img).w / ps)
        ((croppedOf img).w / ps)).w = (croppedOf img).w / ps ∧
    (resize (croppedOf img) ((croppedOf img).w / ps)
        ((croppedOf img).w / ps)).h = (croppedOf img).w / ps ∧
    resizeDefaultFilter = ResampleFilter.nearest := by
  refine ⟨?_, rfl, rfl, rfl⟩
  simp only [qr2scad]
  rw [if_neg (not_not_intro hsq), hps]
  simp [hps0]

/-- Witness for the amended C6 at the concrete image `wimg`, whose
detected module size is 2 and module count is 7. -/
theorem module_count_resize_default_witness :
    (qr2scad wimg false).ret =
      Except.ok (emitScript ((croppedOf wimg).w / 2)
        (resize (croppedOf wimg) ((croppedOf wimg).w / 2)
          ((croppedOf wimg).w / 2)).pix false) ∧
    (resize (croppedOf wimg) ((croppedOf wimg).w / 2)
        ((croppedOf wimg).w / 2)).w = (croppedOf wimg).w / 2 ∧
    (resize (croppedOf wimg) ((croppedOf wimg).w / 2)
        ((croppedOf wimg).w / 2)).h = (croppedOf wimg).w / 2 ∧
    resizeDefaultFilter = ResampleFilter.nearest :=
  module_count_resize_default wimg false 2 (by decide) (by decide)
    (by decide)

/-- C9: on every successful conversion the emitted script is both written
to the destination file and returned to the caller, and the two are the
same value. -/
theorem returned_equals_written (img : Image) (render : Bool)
    (s : List ScadItem) (h : (qr2scad img render).ret = Except.ok s) :
    (qr2scad img render).written = some s := by
  rw [written_eq_toOption, h]
  rfl

/-- Witness for C9 at the concrete image `wimg`, whose conversion
succeeds with script `wScript`. -/
theorem returned_equals_written_witness :
    (qr2scad wimg false).written = some wScript :=
  returned_equals_written wimg false wScript (by rfl)

/-- C10: whenever any detection step raises (blank input, non-square
crop, zero module size), the exception propagates before `open(outfile)`
is reached, so nothing is ever written to the destination. -/
theorem detection_error_no_write (img : Image) (render : Bool) (e : Err)
    (h : (qr2scad img render).ret = Except.error e) :
    (qr2scad img render).written = none := by
  rw [written_eq_toOption, h]
  rfl

/-- Witness for C10 at the concrete blank 2x2 image, which fails with the
division-by-zero error. -/
theorem detection_error_no_write_witness :
    (qr2scad (blankImage 2) true).written = none :=
  detection_error_no_write (blankImage 2) true Err.zeroDivision (by decide)

end QrToScad
